import Mathlib

/-!
Shallow embedding of `src/rust/nix-expr/src/eval_state.rs`: the safe access
layer over the Nix evaluation engine and its garbage collector.

The engine and the collector are external collaborators reached through
boundary calls (`raw::*`).  We model them by an environment (`GEnv`,
`EEnv`) describing what each boundary call would do, and a world state
that records the layer-visible state (the memoized `INIT` cell, the
thread's registration flag, the engine heap of value slots) together with
a trace of the boundary calls issued, so that "at most once", "never
retried", "in that order" and "no call issued" become statements about
the trace.

Rust `Result` is `Except String`; a Rust panic (`unwrap` on `Err`) is the
`Outcome.panic` constructor, distinct from a returned error value.
-/

namespace NixExprModel

/-- Outcome of a Rust call as seen by its caller: a normal return (`ok`),
a returned `Err` value (`error`), or a panic that unwinds past the caller
(`panic`). -/
inductive Outcome (α : Type) where
  | ok : α → Outcome α
  | error : String → Outcome α
  | panic : String → Outcome α
deriving DecidableEq, Repr

/-- `true` iff the outcome is a returned `Err` value. -/
def Outcome.isError {α : Type} : Outcome α → Bool
  | .error _ => true
  | _ => false

/-- Boundary calls issued by the init / GC-registration layer
(`lazy_static INIT`, `init`, `gc_register_my_thread`,
`gc_registering_current_thread`), plus the invocation of the caller's
closure `f`, so that order and multiplicity of side effects are visible. -/
inductive GEvent where
  | allowRegisterThreads            -- raw::GC_allow_register_threads()
  | libexprInit                     -- raw::nix_libexpr_init(ctx)
  | stackBaseQuery                  -- raw::GC_get_stack_base(&mut sb)
  | registerThread (base : Nat)     -- raw::GC_register_my_thread(&sb)
  | unregisterThread                -- raw::GC_unregister_my_thread()
  | invokeF                         -- the closure f passed by the caller
deriving DecidableEq, Repr

/-- Behavior of the external engine/collector for the init and
registration boundary calls: what `nix_libexpr_init` writes into its
error context, and what `GC_get_stack_base` returns (`GC_SUCCESS = 0`)
and writes into `sb.mem_base`. -/
structure GEnv where
  libexprInitErr : Option String
  stackBaseCode : Int
  stackBaseVal : Nat

/-- Layer-visible state: the `lazy_static INIT` cell (`none` before
first use, then the memoized `Result`), the collector's
current-thread-registered flag, and the trace of boundary calls. -/
structure GWorld where
  cached : Option (Except String Unit)
  registered : Bool
  events : List GEvent
deriving Repr

/-- Append one boundary-call event to the trace. -/
def GWorld.log (w : GWorld) (e : GEvent) : GWorld :=
  { w with events := w.events ++ [e] }

/-- The fresh world at process start: `INIT` unevaluated, thread not
registered, no boundary calls issued. -/
def gFresh : GWorld := { cached := none, registered := false, events := [] }

/-- The body of `lazy_static! INIT`: `GC_allow_register_threads()`, then
`nix_libexpr_init(ctx)`, then `context.check_err()?`.  Returns the raw
`Result` that the cell memoizes. -/
def initBody (env : GEnv) (w : GWorld) : Except String Unit × GWorld :=
  let w1 := (w.log .allowRegisterThreads).log .libexprInit
  match env.libexprInitErr with
  | none => (.ok (), w1)
  | some m => (.error m, w1)

/-- `init()`: dereference the `lazy_static` cell (running `initBody` on
first use, returning the memoized value afterwards), then map a cached
`Err e` to a fresh error with message `"nix_libstore_init error: " ++ e`
(the error itself cannot be cloned, so it is re-rendered). -/
def init (env : GEnv) (w : GWorld) : Except String Unit × GWorld :=
  match w.cached with
  | some (.ok ()) => (.ok (), w)
  | some (.error e) => (.error ("nix_libstore_init error: " ++ e), w)
  | none =>
    let (r, w1) := initBody env w
    match r with
    | .ok () => (.ok (), { w1 with cached := some (.ok ()) })
    | .error e =>
      (.error ("nix_libstore_init error: " ++ e), { w1 with cached := some (.error e) })

/-- Run `n` successive calls to `init`, collecting every call's result. -/
def runInit (env : GEnv) : Nat → GWorld → List (Except String Unit) × GWorld
  | 0, w => ([], w)
  | n + 1, w =>
    let (r, w1) := init env w
    let (rs, w2) := runInit env n w1
    (r :: rs, w2)

/-- The single outcome every `init` call observes, as a function of the
engine's behavior on the one real initialization attempt. -/
def initOutcome (env : GEnv) : Except String Unit :=
  match env.libexprInitErr with
  | none => .ok ()
  | some m => .error ("nix_libstore_init error: " ++ m)

/-- The raw memoized cell content after the first `init` call. -/
def initCell (env : GEnv) : Except String Unit :=
  match env.libexprInitErr with
  | none => .ok ()
  | some m => .error m

theorem init_fresh (env : GEnv) :
    init env gFresh =
      (initOutcome env,
        { cached := some (initCell env), registered := false,
          events := [.allowRegisterThreads, .libexprInit] }) := by
  cases h : env.libexprInitErr <;>
    simp [init, gFresh, initBody, GWorld.log, initOutcome, initCell, h]

theorem init_cached (env : GEnv) (w : GWorld) (h : w.cached = some (initCell env)) :
    init env w = (initOutcome env, w) := by
  cases he : env.libexprInitErr <;>
    simp [init, initOutcome, initCell, he] at h ⊢ <;> simp [h]

theorem runInit_cached (env : GEnv) (n : Nat) (w : GWorld)
    (h : w.cached = some (initCell env)) :
    runInit env n w = (List.replicate n (initOutcome env), w) := by
  induction n with
  | zero => simp [runInit]
  | succ n ih => simp [runInit, init_cached env w h, ih, List.replicate]

/-- The world after the first `init` call from a fresh process. -/
def wAfterInit (env : GEnv) : GWorld :=
  { cached := some (initCell env), registered := false,
    events := [.allowRegisterThreads, .libexprInit] }

theorem runInit_fresh (env : GEnv) (n : Nat) :
    runInit env (n + 1) gFresh =
      (List.replicate (n + 1) (initOutcome env), wAfterInit env) := by
  have h1 : init env gFresh = (initOutcome env, wAfterInit env) := init_fresh env
  have h2 : runInit env n (wAfterInit env) =
      (List.replicate n (initOutcome env), wAfterInit env) :=
    runInit_cached env n _ rfl
  simp [runInit, h1, h2, List.replicate]

/-- `gc_register_my_thread()`: if the calling thread is already registered
with the collector, return `Ok(())` at once; otherwise query the stack
base with `GC_get_stack_base(&mut sb)` (failure if the return code is not
`GC_SUCCESS = 0`) and register the thread with the captured base. -/
def gc_register_my_thread (env : GEnv) (w : GWorld) : Except String Unit × GWorld :=
  if w.registered then (.ok (), w)
  else
    let w1 := w.log .stackBaseQuery
    if env.stackBaseCode ≠ 0 then
      (.error ("GC_get_stack_base failed: " ++ toString env.stackBaseCode), w1)
    else
      (.ok (), { w1.log (.registerThread env.stackBaseVal) with registered := true })

/-- `gc_registering_current_thread(f)`: run `init()?`; if the thread is
already registered just invoke `f`; otherwise
`gc_register_my_thread().unwrap()` (a registration `Err` becomes a
panic), invoke `f`, then `GC_unregister_my_thread()`. -/
def gc_registering_current_thread {α : Type} (env : GEnv) (f : Unit → α) (w : GWorld) :
    Outcome α × GWorld :=
  match init env w with
  | (.error e, w1) => (.error e, w1)
  | (.ok (), w1) =>
    if w1.registered then
      (.ok (f ()), w1.log .invokeF)
    else
      match gc_register_my_thread env w1 with
      | (.error e, w2) =>
        (.panic ("called `Result::unwrap()` on an `Err` value: " ++ e), w2)
      | (.ok (), w2) =>
        let w3 := w2.log .invokeF
        (.ok (f ()), { w3.log .unregisterThread with registered := false })

theorem init_preserves (env : GEnv) (w : GWorld) :
    (init env w).2.registered = w.registered ∧
    ∃ es, (init env w).2.events = w.events ++ es ∧ GEvent.invokeF ∉ es := by
  cases hc : w.cached with
  | none =>
    cases he : env.libexprInitErr <;>
      exact ⟨by simp [init, initBody, GWorld.log, hc, he],
        [.allowRegisterThreads, .libexprInit],
        by simp [init, initBody, GWorld.log, hc, he], by simp⟩
  | some r =>
    cases r with
    | ok u => exact ⟨by simp [init, hc], [], by simp [init, hc], by simp⟩
    | error e => exact ⟨by simp [init, hc], [], by simp [init, hc], by simp⟩

/-- Run `n` successive calls to `gc_register_my_thread`, keeping only the
world. -/
def runRegister (env : GEnv) : Nat → GWorld → GWorld
  | 0, w => w
  | n + 1, w => runRegister env n (gc_register_my_thread env w).2

/-- `true` for the collector-registration boundary call, whatever stack
base it was given. -/
def GEvent.isRegister : GEvent → Bool
  | .registerThread _ => true
  | _ => false

theorem runRegister_registered (env : GEnv) (n : Nat) (w : GWorld)
    (h : w.registered = true) : runRegister env n w = w := by
  induction n with
  | zero => rfl
  | succ n ih => simp [runRegister, gc_register_my_thread, h, ih]

/-- C1: For every sequence of calls to `init` from a fresh process, the
initialization side effects (`GC_allow_register_threads` and
`nix_libexpr_init`) appear at most once in the boundary-call trace; every
call returns the one memoized outcome, and when the engine's library init
fails with message `m`, every call reproduces the failure as
`"nix_libstore_init error: " ++ m` while `nix_libexpr_init` is never run
a second time. -/
theorem c1_init_executes_at_most_once (env : GEnv) (n : Nat) :
    (runInit env n gFresh).1 = List.replicate n (initOutcome env) ∧
    (runInit env n gFresh).2.events.count GEvent.libexprInit ≤ 1 ∧
    (runInit env n gFresh).2.events.count GEvent.allowRegisterThreads ≤ 1 ∧
    (∀ m, env.libexprInitErr = some m →
      (runInit env n gFresh).1 =
        List.replicate n (Except.error ("nix_libstore_init error: " ++ m)) ∧
      (runInit env n gFresh).2.events.count GEvent.libexprInit = min n 1) := by
  cases n with
  | zero =>
    refine ⟨by simp [runInit], by simp [runInit, gFresh], by simp [runInit, gFresh], ?_⟩
    intro m hm
    exact ⟨by simp [runInit], by simp [runInit, gFresh]⟩
  | succ k =>
    rw [runInit_fresh]
    refine ⟨rfl, by simp [wAfterInit], by simp [wAfterInit], ?_⟩
    intro m hm
    constructor
    · simp [initOutcome, hm]
    · simp [wAfterInit]

theorem c1_init_executes_at_most_once_witness :
    (runInit ⟨some "boom", 0, 0⟩ 3 gFresh).1 =
      List.replicate 3 (Except.error ("nix_libstore_init error: " ++ "boom")) ∧
    (runInit ⟨some "boom", 0, 0⟩ 3 gFresh).2.events.count GEvent.libexprInit = min 3 1 :=
  (c1_init_executes_at_most_once ⟨some "boom", 0, 0⟩ 3).2.2.2 "boom" rfl

/-- C2: When `init` succeeds, `gc_registering_current_thread f` invokes
`f` exactly once and returns `Ok` of `f`'s result; on an
already-registered thread it performs no registration and no
unregistration (the trace gains only the `f` invocation and the thread
stays registered); on an unregistered thread with a working stack-base
query it queries the stack base, registers the thread with that captured
base, invokes `f`, and unregisters, in that order. -/
theorem c2_gc_registering_invokes_f_once {α : Type} (env : GEnv) (f : Unit → α)
    (w : GWorld) (hinit : (init env w).1 = Except.ok ()) :
    (w.registered = true →
      gc_registering_current_thread env f w =
        (Outcome.ok (f ()), (init env w).2.log .invokeF) ∧
      (gc_registering_current_thread env f w).2.registered = true) ∧
    (w.registered = false → env.stackBaseCode = 0 →
      gc_registering_current_thread env f w =
        (Outcome.ok (f ()),
          { cached := (init env w).2.cached, registered := false,
            events := (init env w).2.events ++
              [.stackBaseQuery, .registerThread env.stackBaseVal, .invokeF,
               .unregisterThread] })) := by
  have hr := (init_preserves env w).1
  rcases hw : init env w with ⟨r, w1⟩
  rw [hw] at hinit hr
  simp only at hinit hr
  subst hinit
  constructor
  · intro hreg
    rw [hreg] at hr
    constructor
    · simp [gc_registering_current_thread, hw, hr]
    · simp [gc_registering_current_thread, hw, hr, GWorld.log]
  · intro hreg hsb
    rw [hreg] at hr
    simp [gc_registering_current_thread, hw, hr, gc_register_my_thread, hsb,
      GWorld.log, List.append_assoc]

theorem c2_gc_registering_invokes_f_once_witness :
    gc_registering_current_thread ⟨none, 0, 7⟩ (fun _ => (42 : Nat)) gFresh =
      (Outcome.ok 42,
        { cached := (init ⟨none, 0, 7⟩ gFresh).2.cached, registered := false,
          events := (init ⟨none, 0, 7⟩ gFresh).2.events ++
            [.stackBaseQuery, .registerThread 7, .invokeF, .unregisterThread] }) :=
  (c2_gc_registering_invokes_f_once ⟨none, 0, 7⟩ (fun _ => (42 : Nat)) gFresh rfl).2
    rfl rfl

/-- C3 counterexample: on an unregistered thread whose stack-base query
fails (return code 1), `gc_registering_current_thread` does not return an
error value to its caller — it panics (the registration `Err` is hit by
`unwrap()`), so the claim that the call "returns a reported error value
to the caller" is false. -/
theorem c3_counterexample :
    Outcome.isError (gc_registering_current_thread ⟨none, 1, 0⟩
        (fun _ => (0 : Nat)) gFresh).1 = false ∧
    (gc_registering_current_thread ⟨none, 1, 0⟩ (fun _ => (0 : Nat)) gFresh).1 =
      Outcome.panic ("called `Result::unwrap()` on an `Err` value: " ++
        ("GC_get_stack_base failed: " ++ toString (1 : Int))) := by
  constructor <;> rfl

/-- C3 amended: if the stack-base query fails during
`gc_registering_current_thread` on an unregistered thread (after a
successful `init`), the call panics — `unwrap()` on the registration
error, carrying the stack-base failure message — instead of returning,
and the closure `f` is never invoked. -/
theorem c3_registration_failure_panics {α : Type} (env : GEnv) (f : Unit → α)
    (w : GWorld) (hinit : (init env w).1 = Except.ok ())
    (hreg : w.registered = false) (hsb : env.stackBaseCode ≠ 0) :
    gc_registering_current_thread env f w =
      (Outcome.panic ("called `Result::unwrap()` on an `Err` value: " ++
          ("GC_get_stack_base failed: " ++ toString env.stackBaseCode)),
        (init env w).2.log .stackBaseQuery) ∧
    (gc_registering_current_thread env f w).2.events.count GEvent.invokeF =
      w.events.count GEvent.invokeF := by
  obtain ⟨hr, es, hes, hnf⟩ := init_preserves env w
  rcases hw : init env w with ⟨r, w1⟩
  rw [hw] at hinit hr hes
  simp only at hinit hr hes
  subst hinit
  rw [hreg] at hr
  have hmain : gc_registering_current_thread env f w =
      (Outcome.panic ("called `Result::unwrap()` on an `Err` value: " ++
          ("GC_get_stack_base failed: " ++ toString env.stackBaseCode)),
        w1.log .stackBaseQuery) := by
    simp [gc_registering_current_thread, hw, hr, gc_register_my_thread, hsb]
  refine ⟨hmain, ?_⟩
  rw [hmain]
  simp [GWorld.log, hes, List.count_append]
  simp [List.count_eq_zero.mpr hnf]

theorem c3_registration_failure_panics_witness :
    gc_registering_current_thread ⟨none, 1, 0⟩ (fun _ => (5 : Nat)) gFresh =
      (Outcome.panic ("called `Result::unwrap()` on an `Err` value: " ++
          ("GC_get_stack_base failed: " ++ toString ((⟨none, 1, 0⟩ : GEnv).stackBaseCode))),
        (init ⟨none, 1, 0⟩ gFresh).2.log .stackBaseQuery) ∧
    (gc_registering_current_thread ⟨none, 1, 0⟩ (fun _ => (5 : Nat)) gFresh).2.events.count
        GEvent.invokeF = gFresh.events.count GEvent.invokeF :=
  c3_registration_failure_panics ⟨none, 1, 0⟩ (fun _ => (5 : Nat)) gFresh rfl rfl
    (by decide)

/-- C10: `gc_register_my_thread` is idempotent: on an already-registered
thread it returns `Ok(())` with the world unchanged (no stack-base query,
no second registration), and any number of successive calls adds at most
one collector registration to the trace. -/
theorem c10_gc_register_my_thread_idempotent (env : GEnv) (w : GWorld) (n : Nat) :
    (w.registered = true → gc_register_my_thread env w = (Except.ok (), w)) ∧
    (runRegister env n w).events.countP GEvent.isRegister ≤
      w.events.countP GEvent.isRegister + 1 := by
  constructor
  · intro h
    simp [gc_register_my_thread, h]
  · induction n generalizing w with
    | zero => simp [runRegister]
    | succ k ih =>
      by_cases h : w.registered
      · rw [runRegister_registered env (k + 1) w h]
        omega
      · by_cases hsb : env.stackBaseCode = 0
        · have hstep : (gc_register_my_thread env w).2 =
              { (w.log .stackBaseQuery).log (.registerThread env.stackBaseVal) with
                registered := true } := by
            simp [gc_register_my_thread, h, hsb]
          have hregd : ((gc_register_my_thread env w).2).registered = true := by
            rw [hstep]
          simp only [runRegister]
          rw [runRegister_registered env k _ hregd, hstep]
          simp [GWorld.log, List.countP_append, GEvent.isRegister]
        · have hstep : (gc_register_my_thread env w).2 = w.log .stackBaseQuery := by
            simp [gc_register_my_thread, h, hsb]
          have hih := ih (w.log .stackBaseQuery)
          simp only [runRegister, hstep]
          calc (runRegister env k (w.log .stackBaseQuery)).events.countP GEvent.isRegister
              ≤ (w.log .stackBaseQuery).events.countP GEvent.isRegister + 1 := hih
            _ = w.events.countP GEvent.isRegister + 1 := by
                simp [GWorld.log, List.countP_append, GEvent.isRegister]

theorem c10_gc_register_my_thread_idempotent_witness :
    gc_register_my_thread ⟨none, 0, 0⟩ ⟨some (Except.ok ()), true, []⟩ =
      (Except.ok (), ⟨some (Except.ok ()), true, []⟩) ∧
    (runRegister ⟨none, 0, 0⟩ 5 ⟨some (Except.ok ()), true, []⟩).events.countP
        GEvent.isRegister ≤
      (⟨some (Except.ok ()), true, []⟩ : GWorld).events.countP GEvent.isRegister + 1 :=
  ⟨(c10_gc_register_my_thread_idempotent ⟨none, 0, 0⟩ ⟨some (Except.ok ()), true, []⟩ 5).1
      rfl,
    (c10_gc_register_my_thread_idempotent ⟨none, 0, 0⟩ ⟨some (Except.ok ()), true, []⟩ 5).2⟩

/-! ## EvalState: evaluation, forcing, type queries, string extraction -/

/-- Modelled from the spec: `crate::value` (value.rs) is not under src;
`ValueType` is the abstract kind enumeration of §4.4
(`{Integer, Bool, String, Path, List, AttrSet, Function, …}` plus the
engine's thunk tag), with `ValueType::from_raw` the evident one-to-one
mapping from the engine's kind tags, so we use one enumeration for both.
Debug names are those pinned by the spec's message examples
("expected a string, but got a Bool" / "… a Path") and the `Int` kind of
the literal-`1` example. -/
inductive ValueType where
  | thunk
  | int
  | float
  | bool
  | string
  | path
  | null
  | attrSet
  | list
  | function
  | external
deriving DecidableEq, Repr

/-- The `{:?}` (Debug) rendering of a `ValueType`, as it appears inside
error messages. -/
def ValueType.debugName : ValueType → String
  | .thunk => "Thunk"
  | .int => "Int"
  | .float => "Float"
  | .bool => "Bool"
  | .string => "String"
  | .path => "Path"
  | .null => "Null"
  | .attrSet => "AttrSet"
  | .list => "List"
  | .function => "Function"
  | .external => "External"

/-- One engine-heap value slot: its current kind tag, and — when the kind
is `string` — the bytes of the NUL-terminated C string that
`nix_get_string` hands back for it. -/
structure SlotVal where
  kind : ValueType
  str : List Nat
deriving DecidableEq, Repr

instance : Inhabited SlotVal := ⟨⟨ValueType.thunk, []⟩⟩

/-- Boundary calls issued by the `EvalState` methods. -/
inductive EEvent where
  | allocValue     -- raw::nix_alloc_value
  | evalString     -- raw::nix_expr_eval_from_string
  | forceValue     -- raw::nix_value_force
  | getType        -- raw::nix_get_type
  | getString      -- raw::nix_get_string
deriving DecidableEq, Repr

/-- Behavior of the external engine for the `EvalState` boundary calls:
what `nix_expr_eval_from_string` produces in the value slot (or writes to
the error context) for a given expression and source label, what
`nix_value_force` turns a slot into (or its error), and what error — if
any — `nix_get_string` writes to the context. -/
structure EEnv where
  evalSpec : List Nat → List Nat → Except String SlotVal
  forceSpec : SlotVal → Except String SlotVal
  getStringErr : Option String

/-- Layer-visible engine state: the allocated value slots (a `Value`
handle is an index into this heap) and the trace of boundary calls. -/
structure EState where
  heap : List SlotVal
  events : List EEvent
deriving Repr

/-- Append one boundary-call event to the trace. -/
def EState.log (s : EState) (e : EEvent) : EState :=
  { s with events := s.events ++ [e] }

/-- `true` iff `b` is a UTF-8 continuation byte (`0x80..=0xBF`). -/
def utf8Cont (b : Nat) : Bool := decide (0x80 ≤ b ∧ b ≤ 0xBF)

/-- UTF-8 well-formedness of a byte sequence, as validated by Rust's
`CStr::to_str` (`str::from_utf8`): ASCII, or a 2-, 3- or 4-byte sequence
with the lead byte's allowed ranges (rejecting overlongs, surrogates and
code points above U+10FFFF). -/
def utf8Valid : List Nat → Bool
  | [] => true
  | b :: rest =>
    if b ≤ 0x7F then utf8Valid rest
    else if 0xC2 ≤ b ∧ b ≤ 0xDF then
      match rest with
      | c1 :: r => utf8Cont c1 && utf8Valid r
      | [] => false
    else if b = 0xE0 then
      match rest with
      | c1 :: c2 :: r => decide (0xA0 ≤ c1 ∧ c1 ≤ 0xBF) && utf8Cont c2 && utf8Valid r
      | _ => false
    else if (0xE1 ≤ b ∧ b ≤ 0xEC) ∨ b = 0xEE ∨ b = 0xEF then
      match rest with
      | c1 :: c2 :: r => utf8Cont c1 && utf8Cont c2 && utf8Valid r
      | _ => false
    else if b = 0xED then
      match rest with
      | c1 :: c2 :: r => decide (0x80 ≤ c1 ∧ c1 ≤ 0x9F) && utf8Cont c2 && utf8Valid r
      | _ => false
    else if b = 0xF0 then
      match rest with
      | c1 :: c2 :: c3 :: r =>
        decide (0x90 ≤ c1 ∧ c1 ≤ 0xBF) && utf8Cont c2 && utf8Cont c3 && utf8Valid r
      | _ => false
    else if 0xF1 ≤ b ∧ b ≤ 0xF3 then
      match rest with
      | c1 :: c2 :: c3 :: r => utf8Cont c1 && utf8Cont c2 && utf8Cont c3 && utf8Valid r
      | _ => false
    else if b = 0xF4 then
      match rest with
      | c1 :: c2 :: c3 :: r =>
        decide (0x80 ≤ c1 ∧ c1 ≤ 0x8F) && utf8Cont c2 && utf8Cont c3 && utf8Valid r
      | _ => false
    else false

/-- Model of `CStr::to_str()`: succeeds with the same bytes when they are
valid UTF-8, fails with a `Utf8Error` otherwise. -/
def to_str (bs : List Nat) : Except String (List Nat) :=
  if utf8Valid bs then .ok bs else .error "invalid utf-8 sequence"

/-- `EvalState::new_value_uninitialized`: `nix_alloc_value` appends a
fresh (still-thunk) slot and hands back its handle. -/
def new_value_uninitialized (s : EState) : Nat × EState :=
  (s.heap.length,
    { heap := s.heap ++ [⟨ValueType.thunk, []⟩], events := s.events ++ [.allocValue] })

/-- `EvalState::eval_from_string(expr, path)`: `CString::new` both
arguments (failing on an interior null byte before any boundary call),
allocate a value slot, call `nix_expr_eval_from_string`, check the error
context, and return the slot's handle. -/
def eval_from_string (env : EEnv) (expr path : List Nat) (s : EState) :
    Except String Nat × EState :=
  if 0 ∈ expr then (.error "eval_from_string: expr contains null byte", s)
  else if 0 ∈ path then (.error "eval_from_string: path contains null byte", s)
  else
    let (h, s1) := new_value_uninitialized s
    let s2 := s1.log .evalString
    match env.evalSpec expr path with
    | .error e => (.error e, s2)
    | .ok v => (.ok h, { s2 with heap := s2.heap.set h v })

/-- `EvalState::value_is_thunk`: `nix_get_type` compared against the
thunk tag. -/
def value_is_thunk (s : EState) (h : Nat) : Bool × EState :=
  (decide ((s.heap.getD h default).kind = ValueType.thunk), s.log .getType)

/-- `EvalState::force`: `nix_value_force` then `check_err`; on success
the engine has rewritten the slot in place. -/
def force (env : EEnv) (s : EState) (h : Nat) : Except String Unit × EState :=
  let s1 := s.log .forceValue
  match env.forceSpec (s.heap.getD h default) with
  | .error e => (.error e, s1)
  | .ok v => (.ok (), { s1 with heap := s1.heap.set h v })

/-- `EvalState::value_type`: if the value is currently a thunk, `force`
it first, then query `nix_get_type` and map through
`ValueType::from_raw`. -/
def value_type (env : EEnv) (s : EState) (h : Nat) : Except String ValueType × EState :=
  let (isT, s1) := value_is_thunk s h
  if isT then
    match force env s1 h with
    | (.error e, s2) => (.error e, s2)
    | (.ok (), s2) => (.ok (s2.heap.getD h default).kind, s2.log .getType)
  else
    (.ok (s1.heap.getD h default).kind, s1.log .getType)

/-- `EvalState::get_string`: `nix_get_string`, `check_err`, then
`CStr::to_str` with UTF-8 failure wrapped as
`"Nix string is not valid UTF-8: …"`, and `to_owned`. -/
def get_string (env : EEnv) (s : EState) (h : Nat) : Except String (List Nat) × EState :=
  let s1 := s.log .getString
  match env.getStringErr with
  | some e => (.error e, s1)
  | none =>
    match to_str (s.heap.getD h default).str with
    | .error e => (.error ("Nix string is not valid UTF-8: " ++ e), s1)
    | .ok bs => (.ok bs, s1)

/-- `EvalState::require_string`: query `value_type`; `bail!` with the
wrong-kind message unless it is `String`; only then retrieve the bytes
via `get_string`. -/
def require_string (env : EEnv) (s : EState) (h : Nat) :
    Except String (List Nat) × EState :=
  match value_type env s h with
  | (.error e, s1) => (.error e, s1)
  | (.ok t, s1) =>
    if t ≠ ValueType.string then
      (.error ("expected a string, but got a " ++ t.debugName), s1)
    else
      get_string env s1 h

theorem set_append_singleton {α : Type} (l : List α) (a v : α) :
    (l ++ [a]).set l.length v = l ++ [v] := by
  induction l with
  | nil => rfl
  | cons x xs ih => simp [List.set, ih]

theorem getD_set_self {α : Type} [Inhabited α] (l : List α) (v : α) :
    ∀ n : Nat, n < l.length → (l.set n v).getD n default = v := by
  induction l with
  | nil => intro n hn; simp at hn
  | cons x xs ih =>
    intro n hn
    cases n with
    | zero => rfl
    | succ m =>
      simp only [List.length_cons, Nat.succ_lt_succ_iff] at hn
      simpa [List.set, List.getD] using ih m hn

theorem value_type_events (env : EEnv) (s : EState) (h : Nat) :
    ∃ es, (value_type env s h).2.events = s.events ++ es ∧ EEvent.getString ∉ es := by
  by_cases ht : (s.heap.getD h default).kind = ValueType.thunk
  · cases hf : env.forceSpec (s.heap.getD h default) with
    | error e =>
      exact ⟨[.getType, .forceValue],
        by simp [value_type, value_is_thunk, force, EState.log, ht, hf,
          -List.getD_eq_getElem?_getD], by simp⟩
    | ok v =>
      exact ⟨[.getType, .forceValue, .getType],
        by simp [value_type, value_is_thunk, force, EState.log, ht, hf,
          -List.getD_eq_getElem?_getD], by simp⟩
  · exact ⟨[.getType, .getType],
      by simp [value_type, value_is_thunk, EState.log, ht,
        -List.getD_eq_getElem?_getD], by simp⟩

/-- C4: For expression text and source label free of interior null
bytes, a successful `eval_from_string` allocates one slot, fills it with
exactly what the engine's string-evaluation entry point produced — which
may still be an unforced thunk — and returns its handle; the boundary
trace gains only the allocation and the evaluation call, never a forcing
call. -/
theorem c4_eval_from_string_no_force (env : EEnv) (expr path : List Nat)
    (s : EState) (v : SlotVal)
    (hx : 0 ∉ expr) (hp : 0 ∉ path) (hv : env.evalSpec expr path = Except.ok v) :
    eval_from_string env expr path s =
      (Except.ok s.heap.length,
        { heap := s.heap ++ [v], events := s.events ++ [.allocValue, .evalString] }) ∧
    (eval_from_string env expr path s).2.events.count EEvent.forceValue =
      s.events.count EEvent.forceValue := by
  have hmain : eval_from_string env expr path s =
      (Except.ok s.heap.length,
        { heap := s.heap ++ [v], events := s.events ++ [.allocValue, .evalString] }) := by
    simp [eval_from_string, hx, hp, new_value_uninitialized, EState.log, hv,
      set_append_singleton]
  refine ⟨hmain, ?_⟩
  rw [hmain]
  simp [List.count_append]

theorem c4_eval_from_string_no_force_witness :
    eval_from_string
        ⟨fun _ _ => Except.ok ⟨ValueType.thunk, []⟩, fun v => Except.ok v, none⟩
        [49] [60] ⟨[], []⟩ =
      (Except.ok ([] : List SlotVal).length,
        { heap := [] ++ [⟨ValueType.thunk, []⟩],
          events := [] ++ [EEvent.allocValue, EEvent.evalString] }) ∧
    (eval_from_string
        ⟨fun _ _ => Except.ok ⟨ValueType.thunk, []⟩, fun v => Except.ok v, none⟩
        [49] [60] ⟨[], []⟩).2.events.count EEvent.forceValue =
      ([] : List EEvent).count EEvent.forceValue :=
  c4_eval_from_string_no_force
    ⟨fun _ _ => Except.ok ⟨ValueType.thunk, []⟩, fun v => Except.ok v, none⟩
    [49] [60] ⟨[], []⟩ ⟨ValueType.thunk, []⟩ (by decide) (by decide) rfl

/-- C9: If the expression text contains an interior null byte,
`eval_from_string` fails with the expr null-byte message and the engine
state is untouched (no boundary call, no slot allocated); if the
expression is clean but the source label contains one, it fails likewise
with the path null-byte message. -/
theorem c9_eval_from_string_null_byte (env : EEnv) (expr path : List Nat) (s : EState) :
    (0 ∈ expr →
      eval_from_string env expr path s =
        (Except.error "eval_from_string: expr contains null byte", s)) ∧
    (0 ∉ expr → 0 ∈ path →
      eval_from_string env expr path s =
        (Except.error "eval_from_string: path contains null byte", s)) := by
  constructor
  · intro hx
    simp [eval_from_string, hx]
  · intro hx hp
    simp [eval_from_string, hx, hp]

theorem c9_eval_from_string_null_byte_witness :
    eval_from_string
        ⟨fun _ _ => Except.ok ⟨ValueType.thunk, []⟩, fun v => Except.ok v, none⟩
        [0] [60] ⟨[], []⟩ =
      (Except.error "eval_from_string: expr contains null byte", ⟨[], []⟩) ∧
    eval_from_string
        ⟨fun _ _ => Except.ok ⟨ValueType.thunk, []⟩, fun v => Except.ok v, none⟩
        [49] [0] ⟨[], []⟩ =
      (Except.error "eval_from_string: path contains null byte", ⟨[], []⟩) :=
  ⟨(c9_eval_from_string_null_byte
      ⟨fun _ _ => Except.ok ⟨ValueType.thunk, []⟩, fun v => Except.ok v, none⟩
      [0] [60] ⟨[], []⟩).1 (by decide),
    (c9_eval_from_string_null_byte
      ⟨fun _ _ => Except.ok ⟨ValueType.thunk, []⟩, fun v => Except.ok v, none⟩
      [49] [0] ⟨[], []⟩).2 (by decide) (by decide)⟩

/-- C5: Provided the engine's forcing call only ever leaves a non-thunk
in the slot (its documented contract), a successful `value_type` never
returns the thunk kind, and on a value that is currently a thunk the kind
query happens only after the forcing call (trace
`[getType, forceValue, getType]`: the thunk check, the force, then the
kind query). -/
theorem c5_value_type_never_thunk (env : EEnv) (s : EState) (h : Nat) (k : ValueType)
    (hh : h < s.heap.length)
    (henv : ∀ v v', env.forceSpec v = Except.ok v' → v'.kind ≠ ValueType.thunk)
    (hk : (value_type env s h).1 = Except.ok k) :
    k ≠ ValueType.thunk ∧
    ((s.heap.getD h default).kind = ValueType.thunk →
      (value_type env s h).2.events =
        s.events ++ [.getType, .forceValue, .getType]) := by
  by_cases ht : (s.heap.getD h default).kind = ValueType.thunk
  · cases hf : env.forceSpec (s.heap.getD h default) with
    | error e =>
      rw [show value_type env s h =
          (Except.error e, ((s.log .getType).log .forceValue)) by
        simp [value_type, value_is_thunk, force, EState.log, ht, hf,
          -List.getD_eq_getElem?_getD]] at hk
      simp at hk
    | ok v =>
      have hmain : value_type env s h =
          (Except.ok ((s.heap.set h v).getD h default).kind,
            ({ heap := s.heap.set h v,
               events := s.events ++ [.getType, .forceValue] } : EState).log .getType) := by
        simp [value_type, value_is_thunk, force, EState.log, ht, hf,
          -List.getD_eq_getElem?_getD]
      rw [hmain] at hk
      simp [getD_set_self s.heap v h hh, -List.getD_eq_getElem?_getD] at hk
      refine ⟨?_, fun _ => by simp [hmain, EState.log]⟩
      rw [← hk]
      exact henv _ v hf
  · have hmain : value_type env s h =
        (Except.ok (s.heap.getD h default).kind, (s.log .getType).log .getType) := by
      simp [value_type, value_is_thunk, EState.log, ht,
        -List.getD_eq_getElem?_getD]
    rw [hmain] at hk
    simp [-List.getD_eq_getElem?_getD] at hk
    exact ⟨by rw [← hk]; exact ht, fun hth => absurd hth ht⟩

theorem c5_value_type_never_thunk_witness :
    ValueType.int ≠ ValueType.thunk ∧
    (((⟨[⟨ValueType.thunk, []⟩], []⟩ : EState).heap.getD 0 default).kind =
        ValueType.thunk →
      (value_type
          ⟨fun _ _ => Except.ok ⟨ValueType.thunk, []⟩,
            fun _ => Except.ok ⟨ValueType.int, []⟩, none⟩
          ⟨[⟨ValueType.thunk, []⟩], []⟩ 0).2.events =
        (⟨[⟨ValueType.thunk, []⟩], []⟩ : EState).events ++
          [EEvent.getType, EEvent.forceValue, EEvent.getType]) :=
  c5_value_type_never_thunk
    ⟨fun _ _ => Except.ok ⟨ValueType.thunk, []⟩,
      fun _ => Except.ok ⟨ValueType.int, []⟩, none⟩
    ⟨[⟨ValueType.thunk, []⟩], []⟩ 0 ValueType.int (by decide)
    (fun v v' hv => by injection hv with h1; rw [← h1]; decide) rfl

/-- C6: When `value_type` succeeds with a kind other than `String`,
`require_string` fails with exactly the message
`"expected a string, but got a " ++` the kind's Debug name, and no
`nix_get_string` boundary call is issued. -/
theorem c6_require_string_wrong_kind (env : EEnv) (s : EState) (h : Nat)
    (t : ValueType)
    (ht : (value_type env s h).1 = Except.ok t) (hne : t ≠ ValueType.string) :
    require_string env s h =
      (Except.error ("expected a string, but got a " ++ t.debugName),
        (value_type env s h).2) ∧
    (require_string env s h).2.events.count EEvent.getString =
      s.events.count EEvent.getString := by
  obtain ⟨es, hes, hnes⟩ := value_type_events env s h
  rcases hvt : value_type env s h with ⟨r, s1⟩
  rw [hvt] at ht hes
  simp at ht hes
  subst ht
  have hmain : require_string env s h =
      (Except.error ("expected a string, but got a " ++ t.debugName), s1) := by
    simp [require_string, hvt, hne]
  refine ⟨by rw [hmain], ?_⟩
  rw [hmain]
  simp [hes, List.count_append, List.count_eq_zero.mpr hnes]

theorem c6_require_string_wrong_kind_witness :
    require_string ⟨fun _ _ => Except.ok ⟨ValueType.thunk, []⟩, fun v => Except.ok v, none⟩
        ⟨[⟨ValueType.bool, []⟩], []⟩ 0 =
      (Except.error ("expected a string, but got a " ++ ValueType.bool.debugName),
        (value_type
          ⟨fun _ _ => Except.ok ⟨ValueType.thunk, []⟩, fun v => Except.ok v, none⟩
          ⟨[⟨ValueType.bool, []⟩], []⟩ 0).2) ∧
    (require_string
        ⟨fun _ _ => Except.ok ⟨ValueType.thunk, []⟩, fun v => Except.ok v, none⟩
        ⟨[⟨ValueType.bool, []⟩], []⟩ 0).2.events.count EEvent.getString =
      (⟨[⟨ValueType.bool, []⟩], []⟩ : EState).events.count EEvent.getString :=
  c6_require_string_wrong_kind
    ⟨fun _ _ => Except.ok ⟨ValueType.thunk, []⟩, fun v => Except.ok v, none⟩
    ⟨[⟨ValueType.bool, []⟩], []⟩ 0 ValueType.bool rfl (by decide)

/-- C7: On a value of kind `String` whose engine-side bytes are valid
UTF-8 (and with `nix_get_string` reporting no error), `require_string`
succeeds and returns exactly those bytes. -/
theorem c7_require_string_utf8 (env : EEnv) (s : EState) (h : Nat)
    (hk : (s.heap.getD h default).kind = ValueType.string)
    (he : env.getStringErr = none)
    (hu : utf8Valid (s.heap.getD h default).str = true) :
    (require_string env s h).1 = Except.ok (s.heap.getD h default).str := by
  simp [require_string, value_type, value_is_thunk, EState.log, hk, get_string, he,
    to_str, hu, -List.getD_eq_getElem?_getD]

theorem c7_require_string_utf8_witness :
    (require_string
        ⟨fun _ _ => Except.ok ⟨ValueType.thunk, []⟩, fun v => Except.ok v, none⟩
        ⟨[⟨ValueType.string, [104, 101, 108, 108, 111]⟩], []⟩ 0).1 =
      Except.ok ((⟨[⟨ValueType.string, [104, 101, 108, 108, 111]⟩], []⟩ :
        EState).heap.getD 0 default).str :=
  c7_require_string_utf8
    ⟨fun _ _ => Except.ok ⟨ValueType.thunk, []⟩, fun v => Except.ok v, none⟩
    ⟨[⟨ValueType.string, [104, 101, 108, 108, 111]⟩], []⟩ 0 rfl rfl (by decide)

/-- C8: On a value of kind `String` whose engine-side bytes are not
valid UTF-8, `require_string` fails — no bytes are returned — with a
message that contains the substring "not valid UTF-8". -/
theorem c8_require_string_invalid_utf8 (env : EEnv) (s : EState) (h : Nat)
    (hk : (s.heap.getD h default).kind = ValueType.string)
    (he : env.getStringErr = none)
    (hu : utf8Valid (s.heap.getD h default).str = false) :
    (require_string env s h).1 =
      Except.error ("Nix string is not valid UTF-8: " ++ "invalid utf-8 sequence") := by
  simp [require_string, value_type, value_is_thunk, EState.log, hk, get_string, he,
    to_str, hu, -List.getD_eq_getElem?_getD]

theorem c8_require_string_invalid_utf8_witness :
    (require_string
        ⟨fun _ _ => Except.ok ⟨ValueType.thunk, []⟩, fun v => Except.ok v, none⟩
        ⟨[⟨ValueType.string, [195]⟩], []⟩ 0).1 =
      Except.error ("Nix string is not valid UTF-8: " ++ "invalid utf-8 sequence") :=
  c8_require_string_invalid_utf8
    ⟨fun _ _ => Except.ok ⟨ValueType.thunk, []⟩, fun v => Except.ok v, none⟩
    ⟨[⟨ValueType.string, [195]⟩], []⟩ 0 rfl rfl (by decide)

end NixExprModel
